import Mathlib

/-
Verification of the rm-node-cli MQTT fleet manager against its specification.

The development shallowly embeds the Python source:
- `rm_node_cli/mqtt_operations.py`   (MQTT session wrapper)
- `rm_node_cli/rmnode_cli.py`        (OTA job store)
- `rm_node_cli/persistent_shell.py`  (OTA status dispatch)
- `rm_node_cli/utils/connection_pool.py` (circuit breaker, rate limiter)
- `rm_node_cli/utils/optimized_monitoring.py` (adaptive monitor, subscriptions)

Python dicts are embedded as insertion-ordered association lists with
unique keys (`Dict`); JSON payload values as `Value` (strings and
integers, which cover every field the claims touch); wall-clock times as
integer parameters threaded through the operations; calls into the
underlying AWS IoT client as explicit action lists; and the fallible
underlying client calls as `Except Unit Bool` parameters.
-/

namespace RMNode

/-- Insertion-ordered association list standing for a Python `dict`.
Python dicts have unique keys; `set` updates the first (hence only)
binding in place or appends a fresh one, exactly like `d[k] = v`, and
`del` removes every binding of the key, which on unique-key lists
coincides with `del d[k]`. -/
abbrev Dict (κ α : Type) : Type := List (κ × α)

/-- Lookup, as Python `d.get(k)` / `k in d`. -/
def Dict.get {κ α : Type} [DecidableEq κ] : Dict κ α → κ → Option α
  | [], _ => none
  | (k', v) :: rest, k => if k' = k then some v else Dict.get rest k

/-- Update-or-append, as Python `d[k] = v`. -/
def Dict.set {κ α : Type} [DecidableEq κ] : Dict κ α → κ → α → Dict κ α
  | [], k, v => [(k, v)]
  | (k', v') :: rest, k, v =>
      if k' = k then (k, v) :: rest else (k', v') :: Dict.set rest k v

/-- Key removal, as Python `del d[k]` (and a no-op when absent). -/
def Dict.del {κ α : Type} [DecidableEq κ] : Dict κ α → κ → Dict κ α
  | [], _ => []
  | (k', v') :: rest, k =>
      if k' = k then Dict.del rest k else (k', v') :: Dict.del rest k

/-- JSON scalar values as they appear in the payload fields the claims
are about (strings and integer timestamps). -/
inductive Value where
  | vStr : String → Value
  | vInt : Int → Value
deriving DecidableEq

/-- Python truthiness of a payload field: the empty string and 0 are
falsy, everything else is truthy; an absent field (`None`) is handled by
the `Option` layer at each use site. -/
def Value.truthy : Value → Bool
  | Value.vStr s => !(s == "")
  | Value.vInt n => !(n == 0)

/-! ## MQTT session wrapper (`mqtt_operations.py`, class MQTTOperations) -/

/-- Mutable session fields of `MQTTOperations` that the connect and
disconnect paths read or write (`self.connected`, `self.last_ping`). -/
structure MqttSessionState where
  connected : Bool
  lastPing : Int
deriving DecidableEq

/-- Calls handed to the underlying `AWSIoTMQTTClient` handle. -/
inductive ClientCall where
  | connectCall : ClientCall
  | disconnectCall : ClientCall
deriving DecidableEq

/-- Embeds `MQTTOperations.connect` (mqtt_operations.py lines 106-118);
`MQTTOperations.connect_async` (lines 89-104) has the identical body
under the per-session connect lock.  `clientConnect` is the behaviour of
`self.mqtt_client.connect()`: `.ok r` a normal return, `.error ()` a
raised exception.  Returns the Python result (or the re-raised
`MQTTOperationsException`), the new session state, and the calls made on
the underlying client. -/
def MQTTOperations.connect (s : MqttSessionState) (now : Int)
    (clientConnect : Except Unit Bool) :
    Except Unit Bool × MqttSessionState × List ClientCall :=
  if s.connected then
    (Except.ok true, s, [])
  else
    match clientConnect with
    | Except.ok r =>
        (Except.ok r,
         if r then { connected := true, lastPing := now } else s,
         [ClientCall.connectCall])
    | Except.error e =>
        (Except.error e, { s with connected := false }, [ClientCall.connectCall])

/-- Embeds `MQTTOperations.connect_async` (lines 89-104): same body as
the synchronous `connect`, with the blocking call dispatched to a thread
pool. -/
def MQTTOperations.connectAsync (s : MqttSessionState) (now : Int)
    (clientConnect : Except Unit Bool) :
    Except Unit Bool × MqttSessionState × List ClientCall :=
  if s.connected then
    (Except.ok true, s, [])
  else
    match clientConnect with
    | Except.ok r =>
        (Except.ok r,
         if r then { connected := true, lastPing := now } else s,
         [ClientCall.connectCall])
    | Except.error e =>
        (Except.error e, { s with connected := false }, [ClientCall.connectCall])

/-- Embeds `MQTTOperations._silent_disconnect` (lines 144-160): the
underlying `self.mqtt_client.disconnect()` result is returned on normal
return, and any exception is swallowed and turned into `True`. -/
def MQTTOperations.silentDisconnect (clientDisconnect : Except Unit Bool) : Bool :=
  match clientDisconnect with
  | Except.ok r => r
  | Except.error _ => true

/-- Embeds `MQTTOperations.disconnect` (lines 133-142): calls
`_silent_disconnect`, sets `self.connected = False`, returns the result;
its own `except` arm (also returning `True` with `connected = False`) is
unreachable because `_silent_disconnect` never raises.  The result type
is `Bool`, not `Except`, because every path returns normally. -/
def MQTTOperations.disconnect (s : MqttSessionState)
    (clientDisconnect : Except Unit Bool) :
    Bool × MqttSessionState × List ClientCall :=
  (MQTTOperations.silentDisconnect clientDisconnect,
   { s with connected := false },
   [ClientCall.disconnectCall])

/-- Embeds `MQTTOperations.disconnect_async` (lines 120-131): identical
state behaviour, with `_silent_disconnect` run in the thread pool. -/
def MQTTOperations.disconnectAsync (s : MqttSessionState)
    (clientDisconnect : Except Unit Bool) :
    Bool × MqttSessionState × List ClientCall :=
  (MQTTOperations.silentDisconnect clientDisconnect,
   { s with connected := false },
   [ClientCall.disconnectCall])

/-- Embeds the qos adjustment of `MQTTOperations.publish` (lines
286-293): Python `if 'otastatus' in topic: qos = 0` is a substring
containment test, embedded as character-list infix; the returned value
is the qos handed to `self.mqtt_client.publish`. -/
def MQTTOperations.publishQos (topic : String) (qos : Nat) : Nat :=
  if "otastatus".toList <:+: topic.toList then 0 else qos

/-- Embeds the identical qos adjustment of `MQTTOperations.publish_async`
(lines 260-270). -/
def MQTTOperations.publishAsyncQos (topic : String) (qos : Nat) : Nat :=
  if "otastatus".toList <:+: topic.toList then 0 else qos

/-! ## OTA job store (`rmnode_cli.py`, class RMNodeManager) -/

/-- One stored OTA record / one inbound URL-response payload: a JSON
object, embedded as a string-keyed dict of scalar values. -/
abbrev OtaRecord : Type := Dict String Value

/-- The two OTA partitions, in memory (`self.ota_jobs`,
`self.ota_status_history`) and their on-disk JSON images
(`ota_jobs.json`, `ota_status_history.json`).  Each partition maps
`node_id` to a dict from OTA job id (an arbitrary payload value used as
a dict key) to the stored record. -/
structure OtaState where
  otaJobs : Dict String (Dict Value OtaRecord)
  otaStatusHistory : Dict String (Dict Value OtaRecord)
  diskOtaJobs : Dict String (Dict Value OtaRecord)
  diskOtaStatusHistory : Dict String (Dict Value OtaRecord)
deriving DecidableEq

/-- The empty store: fresh files, nothing stored. -/
def OtaState.empty : OtaState :=
  { otaJobs := [], otaStatusHistory := [], diskOtaJobs := [], diskOtaStatusHistory := [] }

/-- Embeds `RMNodeManager._save_ota_jobs` (rmnode_cli.py lines 579-585):
writes the in-memory active partition to disk. -/
def RMNodeManager.saveOtaJobs (s : OtaState) : OtaState :=
  { s with diskOtaJobs := s.otaJobs }

/-- Embeds `RMNodeManager._save_ota_status_history` (lines 597-603). -/
def RMNodeManager.saveOtaStatusHistory (s : OtaState) : OtaState :=
  { s with diskOtaStatusHistory := s.otaStatusHistory }

/-- Embeds `RMNodeManager.store_ota_job` (lines 605-633): extracts
`ota_job_id` from the response; a missing or falsy id returns `False`
with no mutation; otherwise the record (response plus injected
`timestamp` and `received_at`) is stored under
`(node_id, ota_job_id)` in the active partition and the partition is
saved. -/
def RMNodeManager.storeOtaJob (nowMs : Int) (nowStr : String) (nodeId : String)
    (otaResponse : OtaRecord) (s : OtaState) : Bool × OtaState :=
  match otaResponse.get "ota_job_id" with
  | none => (false, s)
  | some jid =>
      if jid.truthy then
        let nodeJobs := (s.otaJobs.get nodeId).getD []
        let record :=
          (otaResponse.set "timestamp" (Value.vInt nowMs)).set "received_at" (Value.vStr nowStr)
        let jobs' := s.otaJobs.set nodeId (nodeJobs.set jid record)
        (true, RMNodeManager.saveOtaJobs { s with otaJobs := jobs' })
      else
        (false, s)

/-- Embeds `RMNodeManager.clear_ota_jobs` (lines 641-649): clears one
node's active jobs (saving only if the node was present) or the whole
active partition. -/
def RMNodeManager.clearOtaJobs (nodeId : Option String) (s : OtaState) : OtaState :=
  match nodeId with
  | some n =>
      if (s.otaJobs.get n).isSome then
        RMNodeManager.saveOtaJobs { s with otaJobs := s.otaJobs.del n }
      else s
  | none => RMNodeManager.saveOtaJobs { s with otaJobs := [] }

/-- Embeds `RMNodeManager.move_ota_job_to_history` (lines 651-682): if
`(node_id, job_id)` is active, copy the record, add `ota_status`,
`status_timestamp`, `status_received_at`, put the copy in the history
partition, delete the active entry (dropping the node entry when it
becomes empty), and save both files. -/
def RMNodeManager.moveOtaJobToHistory (nowMs : Int) (nowStr : String)
    (nodeId : String) (jobId : Value) (status : String) (s : OtaState) :
    Bool × OtaState :=
  match s.otaJobs.get nodeId with
  | none => (false, s)
  | some jobs =>
      match jobs.get jobId with
      | none => (false, s)
      | some jobData =>
          let jd :=
            ((jobData.set "ota_status" (Value.vStr status)).set
              "status_timestamp" (Value.vInt nowMs)).set
              "status_received_at" (Value.vStr nowStr)
          let histNode := ((s.otaStatusHistory.get nodeId).getD []).set jobId jd
          let hist := { s with otaStatusHistory := s.otaStatusHistory.set nodeId histNode }
          let jobs' := jobs.del jobId
          let jobsMap :=
            if jobs' = [] then hist.otaJobs.del nodeId else hist.otaJobs.set nodeId jobs'
          let s2 := { hist with otaJobs := jobsMap }
          (true, RMNodeManager.saveOtaStatusHistory (RMNodeManager.saveOtaJobs s2))

/-- Membership of `(n, j)` in the Active partition. -/
def OtaState.inActive (s : OtaState) (n : String) (j : Value) : Bool :=
  match s.otaJobs.get n with
  | some jobs => (jobs.get j).isSome
  | none => false

/-- Membership of `(n, j)` in the History partition. -/
def OtaState.inHistory (s : OtaState) (n : String) (j : Value) : Bool :=
  match s.otaStatusHistory.get n with
  | some jobs => (jobs.get j).isSome
  | none => false

/-- Membership of `(n, j)` in at least one of the two partitions. -/
def OtaState.inEither (s : OtaState) (n : String) (j : Value) : Bool :=
  s.inActive n j || s.inHistory n j

/-- Embeds the OTA-status dispatch of the shell
(`persistent_shell.py` lines 1773-1775, `_handle_send_ota_status_core`):
after publishing the status payload, the job is moved to history exactly
when the status is not `in-progress`; otherwise the store is left
untouched. -/
def PersistentShell.sendOtaStatusMove (nowMs : Int) (nowStr : String)
    (status : String) (nodeId : String) (jobId : Value) (s : OtaState) : OtaState :=
  if status ≠ "in-progress" then
    (RMNodeManager.moveOtaJobToHistory nowMs nowStr nodeId jobId status s).2
  else s

/-! ## Connection pool (`utils/connection_pool.py`, class ConnectionPool) -/

/-- Embeds `ConnectionState` (connection_pool.py lines 22-27). -/
inductive ConnectionState where
  | disconnected : ConnectionState
  | connecting : ConnectionState
  | connected : ConnectionState
  | failed : ConnectionState
  | circuitOpen : ConnectionState
deriving DecidableEq

/-- Embeds the `ConnectionStats` dataclass (lines 30-40), with the
integer-second clock of the embedding; the float backoff fields of the
config do not appear here. -/
structure ConnectionStats where
  connectionAttempts : Nat := 0
  successfulConnections : Nat := 0
  failedConnections : Nat := 0
  lastAttemptTime : Int := 0
  lastSuccessTime : Int := 0
  consecutiveFailures : Nat := 0
  totalUptime : Int := 0
  connectionStartTime : Option Int := none
deriving DecidableEq

/-- Embeds the integer fields of `PoolConfig` (lines 43-57) with their
source defaults; `retry_backoff_base` and `jitter_range` are floats used
only for sleep durations and are not part of any claim. -/
structure PoolConfig where
  maxConcurrentConnections : Nat := 0
  connectionRateLimit : Nat := 0
  batchSize : Nat := 0
  circuitBreakerThreshold : Nat := 3
  circuitBreakerTimeout : Int := 120
  connectionTimeout : Int := 8
  operationTimeout : Int := 6
  healthCheckInterval : Int := 25
  maxRetries : Nat := 2
  espKeepaliveTime : Int := 20
deriving DecidableEq

/-- The pool's per-node mutable maps (`self.connection_states`,
`self.connection_stats`, `self.circuit_breaker_timers`). -/
structure PoolState where
  connectionStates : Dict String ConnectionState := []
  connectionStats : Dict String ConnectionStats := []
  circuitBreakerTimers : Dict String Int := []
deriving DecidableEq

/-- Embeds `ConnectionPool._open_circuit_breaker` (lines 258-262): set
the node's state to CIRCUIT_OPEN and record `time.time()` as the breaker
timestamp. -/
def ConnectionPool.openCircuitBreaker (now : Int) (s : PoolState) (nodeId : String) :
    PoolState :=
  { s with
    connectionStates := s.connectionStates.set nodeId ConnectionState.circuitOpen,
    circuitBreakerTimers := s.circuitBreakerTimers.set nodeId now }

/-- Embeds `ConnectionPool._handle_connection_failure` (lines 249-256):
increment `failed_connections` and `consecutive_failures`, then open the
breaker when the consecutive-failure count reaches
`circuit_breaker_threshold`.  The stats entry is created by
`_do_connection` before any failure; absent entries take the dataclass
defaults. -/
def ConnectionPool.handleConnectionFailure (cfg : PoolConfig) (now : Int)
    (s : PoolState) (nodeId : String) : PoolState :=
  let stats := (s.connectionStats.get nodeId).getD {}
  let stats' :=
    { stats with
      failedConnections := stats.failedConnections + 1,
      consecutiveFailures := stats.consecutiveFailures + 1 }
  let s1 := { s with connectionStats := s.connectionStats.set nodeId stats' }
  if stats'.consecutiveFailures ≥ cfg.circuitBreakerThreshold then
    ConnectionPool.openCircuitBreaker now s1 nodeId
  else s1

/-- Embeds `ConnectionPool._should_attempt_connection` (lines 264-278):
an unknown node counts as DISCONNECTED; a CIRCUIT_OPEN node is skipped
until `now - timer > circuit_breaker_timeout`, at which point it is
moved to DISCONNECTED, its timer dropped, and the attempt allowed;
otherwise only DISCONNECTED and FAILED nodes may attempt.
`_connect_single_node` (lines 154-163) returns before creating a client
or calling `connect()` whenever this returns false, so a false result is
an attempt skipped without initiating a connect. -/
def ConnectionPool.shouldAttemptConnection (cfg : PoolConfig) (now : Int)
    (s : PoolState) (nodeId : String) : Bool × PoolState :=
  let state := (s.connectionStates.get nodeId).getD ConnectionState.disconnected
  if state = ConnectionState.circuitOpen then
    match s.circuitBreakerTimers.get nodeId with
    | some t =>
        if now - t > cfg.circuitBreakerTimeout then
          let states' := s.connectionStates.set nodeId ConnectionState.disconnected
          let timers' := s.circuitBreakerTimers.del nodeId
          (true, { s with connectionStates := states', circuitBreakerTimers := timers' })
        else (false, s)
    | none => (false, s)
  else
    (decide (state = ConnectionState.disconnected ∨ state = ConnectionState.failed), s)

/-- Embeds one iteration of `ConnectionPool._reset_rate_limiter` (lines
280-290).  The loop body is
`for _ in range(connection_rate_limit): try: release() except ValueError: break`;
`asyncio.Semaphore.release` only increments the counter and never raises
`ValueError` (that is `threading.BoundedSemaphore` behaviour), so the
`break` is dead and every tick adds exactly `connection_rate_limit`
permits to the current counter. -/
def ConnectionPool.resetRateLimiterTick (connectionRateLimit : Nat) (counter : Nat) : Nat :=
  counter + connectionRateLimit

/-- Events of the rate-limiter trace: the once-per-second reset tick, and
an attempted `connect()` acquiring one permit
(`await self.rate_limiter.acquire()`, line 163). -/
inductive RateEvent where
  | tick : RateEvent
  | tryConnect : RateEvent
deriving DecidableEq

/-- Rate-limiter trace state: the semaphore counter, the number of
connects initiated since the last tick (the current one-second window),
and the maximum over all windows so far. -/
structure RateState where
  counter : Nat
  windowConnects : Nat
  maxWindowConnects : Nat
deriving DecidableEq

/-- One step of the rate-limiter trace: a tick runs
`_reset_rate_limiter`'s release loop and starts a new one-second window;
a connect attempt proceeds when a permit is available (decrementing the
counter, as `asyncio.Semaphore.acquire`) and otherwise blocks. -/
def ConnectionPool.rateStep (limit : Nat) (s : RateState) : RateEvent → RateState
  | RateEvent.tick =>
      { s with
        counter := ConnectionPool.resetRateLimiterTick limit s.counter,
        windowConnects := 0 }
  | RateEvent.tryConnect =>
      if s.counter > 0 then
        { counter := s.counter - 1,
          windowConnects := s.windowConnects + 1,
          maxWindowConnects := max s.maxWindowConnects (s.windowConnects + 1) }
      else s

/-- Runs a rate-limiter trace from the initial semaphore
`asyncio.Semaphore(connection_rate_limit)` (line 78). -/
def ConnectionPool.runRateLimiter (limit : Nat) (events : List RateEvent) : RateState :=
  events.foldl (ConnectionPool.rateStep limit)
    { counter := limit, windowConnects := 0, maxWindowConnects := 0 }

/-! ## Adaptive monitor (`utils/optimized_monitoring.py`, class AdaptiveMonitor) -/

/-- Embeds `MonitoringLevel` (optimized_monitoring.py lines 21-26). -/
inductive MonitoringLevel where
  | critical : MonitoringLevel
  | high : MonitoringLevel
  | normal : MonitoringLevel
  | low : MonitoringLevel
  | minimal : MonitoringLevel
deriving DecidableEq

/-- Embeds the fields of `NodeMonitoringProfile` (lines 29-42) that the
level-adjustment step reads or writes. -/
structure NodeMonitoringProfile where
  nodeId : String
  level : MonitoringLevel
  lastActivity : Int
  errorCount : Nat
  consecutiveSuccesses : Nat
  customInterval : Option Nat := none
deriving DecidableEq

/-- Embeds `AdaptiveMonitor._adjust_monitoring_level` (lines 214-229)
exactly as written: the whole demotion chain is nested under
`if profile.error_count > 0`, the inner NORMAL arm additionally requires
`profile.error_count == 0`, and afterwards
`error_count = max(0, error_count - 1)` when
`consecutive_successes >= 20` (natural subtraction). -/
def AdaptiveMonitor.adjustMonitoringLevel (p : NodeMonitoringProfile) :
    NodeMonitoringProfile :=
  let p1 :=
    if p.errorCount > 0 then
      if p.consecutiveSuccesses < 3 then { p with level := MonitoringLevel.high }
      else if p.consecutiveSuccesses ≥ 10 then
        if p.level = MonitoringLevel.high then { p with level := MonitoringLevel.normal }
        else if p.level = MonitoringLevel.normal ∧ p.errorCount = 0 then
          { p with level := MonitoringLevel.low }
        else p
      else p
    else p
  if p1.consecutiveSuccesses ≥ 20 then { p1 with errorCount := p1.errorCount - 1 }
  else p1

/-! ## Selective subscription manager
(`utils/optimized_monitoring.py`, class SelectiveSubscriptionManager) -/

/-- A subscription key: the Python code keys `subscription_priority` by
`full_topic = f"{node_id}/{topic}"` and recovers the parts with
`full_topic.split('/', 1)`; for the slash-free node ids the tool uses
this is exactly the pair `(node_id, topic)`, which the embedding keeps
unconcatenated. -/
abbrev FullTopic : Type := String × String

/-- Calls made on the underlying per-node MQTT session by the
subscription manager. -/
inductive SubAction where
  | subscribeA : FullTopic → Nat → SubAction
  | unsubscribeA : FullTopic → SubAction
deriving DecidableEq

/-- True exactly on unsubscribe calls. -/
def SubAction.isUnsub : SubAction → Bool
  | SubAction.subscribeA _ _ => false
  | SubAction.unsubscribeA _ => true

/-- Manager state: `self.active_subscriptions` (a defaultdict from node
id to its set of topic suffixes, embedded as a duplicate-free list) and
`self.subscription_priority` (full topic to priority). -/
structure SubscriptionState where
  activeSubscriptions : Dict String (List String)
  subscriptionPriority : Dict FullTopic Int
deriving DecidableEq

/-- The fresh manager. -/
def SubscriptionState.empty : SubscriptionState :=
  { activeSubscriptions := [], subscriptionPriority := [] }

/-- Python `set.add`: insert the topic if absent. -/
def insertTopic (t : String) (l : List String) : List String :=
  if t ∈ l then l else l ++ [t]

/-- Total subscription count across all nodes,
`sum(len(topics) for topics in self.active_subscriptions.values())`
(line 330). -/
def SelectiveSubscriptionManager.totalSubscriptions (st : SubscriptionState) : Nat :=
  (st.activeSubscriptions.map (fun kv => kv.2.length)).sum

/-- The eviction loop body of `_cleanup_low_priority_subscriptions`
(lines 363-374): walk the priority-sorted entries, and until
`needed_slots` entries are removed, discard the topic from the node's
set (a defaultdict access, creating an empty entry when absent) and
delete the priority entry.  The `'/' in full_topic` guard always holds
since every full topic contains the separator.  No call is made on the
MQTT session. -/
def SelectiveSubscriptionManager.evictLoop :
    Nat → List (FullTopic × Int) → SubscriptionState → SubscriptionState
  | 0, _, st => st
  | _ + 1, [], st => st
  | k + 1, (ft, _) :: rest, st =>
      let nodeSet := ((st.activeSubscriptions.get ft.1).getD []).erase ft.2
      SelectiveSubscriptionManager.evictLoop k rest
        { activeSubscriptions := st.activeSubscriptions.set ft.1 nodeSet,
          subscriptionPriority := st.subscriptionPriority.del ft }

/-- Embeds `_cleanup_low_priority_subscriptions` (lines 358-374):
`sorted(self.subscription_priority.items(), key=lambda x: x[1])` is a
stable ascending sort by priority, then the eviction loop removes up to
`needed_slots` entries. -/
def SelectiveSubscriptionManager.cleanupLowPrioritySubscriptions
    (neededSlots : Nat) (st : SubscriptionState) : SubscriptionState :=
  SelectiveSubscriptionManager.evictLoop neededSlots
    (List.insertionSort (fun a b => a.2 ≤ b.2) st.subscriptionPriority) st

/-- The per-topic loop of `subscribe_node_topics` (lines 336-344): each
topic is subscribed on the session at qos 0; on success the topic joins
the node's set and its priority is recorded, and a raising subscribe
(`subOk t = false`) is logged and skipped. -/
def SelectiveSubscriptionManager.subscribeTopicsLoop (nodeId : String)
    (priority : Int) (subOk : String → Bool) :
    List String → SubscriptionState → SubscriptionState × List SubAction
  | [], st => (st, [])
  | t :: rest, st =>
      let nodeSet := insertTopic t ((st.activeSubscriptions.get nodeId).getD [])
      let st' :=
        if subOk t then
          { activeSubscriptions := st.activeSubscriptions.set nodeId nodeSet,
            subscriptionPriority := st.subscriptionPriority.set (nodeId, t) priority }
        else st
      let tail := SelectiveSubscriptionManager.subscribeTopicsLoop nodeId priority subOk rest st'
      (tail.1, SubAction.subscribeA (nodeId, t) 0 :: tail.2)

/-- Embeds `subscribe_node_topics` (lines 327-344): when
`max_subscriptions` is set (Python truthiness: `None` and `0` both skip)
and `current_total + len(topics)` exceeds it, run the low-priority
cleanup for `len(topics)` slots; then subscribe every requested topic at
qos 0. -/
def SelectiveSubscriptionManager.subscribeNodeTopics (maxSubscriptions : Option Nat)
    (nodeId : String) (topics : List String) (priority : Int)
    (subOk : String → Bool) (st : SubscriptionState) :
    SubscriptionState × List SubAction :=
  let currentTotal := SelectiveSubscriptionManager.totalSubscriptions st
  let st1 :=
    match maxSubscriptions with
    | some m =>
        if m ≠ 0 ∧ currentTotal + topics.length > m then
          SelectiveSubscriptionManager.cleanupLowPrioritySubscriptions topics.length st
        else st
    | none => st
  SelectiveSubscriptionManager.subscribeTopicsLoop nodeId priority subOk topics st1

/-! ## Concrete scenarios used to settle the claims -/

/-- OTA store after receiving a URL response for job `J1` of node `n1`. -/
def otaScenario1 : OtaState :=
  (RMNodeManager.storeOtaJob 1000 "t1" "n1"
    [("ota_job_id", Value.vStr "J1"), ("url", Value.vStr "u")] OtaState.empty).2

/-- The same store after the operator reports terminal status `success`
for job `J1`: the job moves from Active to History. -/
def otaScenario2 : OtaState :=
  (RMNodeManager.moveOtaJobToHistory 2000 "t2" "n1" (Value.vStr "J1") "success" otaScenario1).2

/-- The same store after a second URL response arrives for the already
completed job id `J1`. -/
def otaScenario3 : OtaState :=
  (RMNodeManager.storeOtaJob 3000 "t3" "n1" [("ota_job_id", Value.vStr "J1")] otaScenario2).2

/-- Subscription manager with `max_subscriptions = 2` after subscribing
two topics for node `n0` at priority 1. -/
def subScenarioA : SubscriptionState × List SubAction :=
  SelectiveSubscriptionManager.subscribeNodeTopics (some 2) "n0" ["x", "y"] 1
    (fun _ => true) SubscriptionState.empty

/-- The same manager after a second call subscribing three topics for
node `n1` at priority 5, which triggers the low-priority cleanup. -/
def subScenarioB : SubscriptionState × List SubAction :=
  SelectiveSubscriptionManager.subscribeNodeTopics (some 2) "n1" ["a", "b", "c"] 5
    (fun _ => true) subScenarioA.1

/-! ## Dictionary lemmas -/

/-- Setting a key makes it readable. -/
theorem Dict.get_set_self {κ α : Type} [DecidableEq κ] (m : Dict κ α) (k : κ) (v : α) :
    (m.set k v).get k = some v := by
  induction m with
  | nil => simp [Dict.set, Dict.get]
  | cons kv rest ih =>
      obtain ⟨k', v'⟩ := kv
      by_cases h : k' = k
      · simp [Dict.set, Dict.get, h]
      · simp [Dict.set, Dict.get, h, ih]

/-- Setting one key leaves every other key unchanged. -/
theorem Dict.get_set_ne {κ α : Type} [DecidableEq κ] (m : Dict κ α) {k k' : κ} (v : α)
    (h : k' ≠ k) : (m.set k v).get k' = m.get k' := by
  have hkk : ¬ (k = k') := fun hh => h (Eq.symm hh)
  induction m with
  | nil => simp [Dict.set, Dict.get, hkk]
  | cons kv rest ih =>
      obtain ⟨k₀, v₀⟩ := kv
      by_cases h₀ : k₀ = k
      · subst h₀
        simp [Dict.set, Dict.get, hkk]
      · simp only [Dict.set, if_neg h₀, Dict.get]
        by_cases h₁ : k₀ = k'
        · rw [if_pos h₁, if_pos h₁]
        · rw [if_neg h₁, if_neg h₁]
          exact ih

/-- Deleting a key removes it. -/
theorem Dict.get_del_self {κ α : Type} [DecidableEq κ] (m : Dict κ α) (k : κ) :
    (m.del k).get k = none := by
  induction m with
  | nil => simp [Dict.del, Dict.get]
  | cons kv rest ih =>
      obtain ⟨k', v'⟩ := kv
      by_cases h : k' = k
      · simp [Dict.del, h, ih]
      · simp [Dict.del, Dict.get, h, ih]

/-- Deleting one key leaves every other key unchanged. -/
theorem Dict.get_del_ne {κ α : Type} [DecidableEq κ] (m : Dict κ α) {k k' : κ}
    (h : k' ≠ k) : (m.del k).get k' = m.get k' := by
  have hkk : ¬ (k = k') := fun hh => h (Eq.symm hh)
  induction m with
  | nil => simp [Dict.del]
  | cons kv rest ih =>
      obtain ⟨k₀, v₀⟩ := kv
      by_cases h₀ : k₀ = k
      · subst h₀
        simp only [Dict.del, if_pos rfl, Dict.get]
        rw [if_neg hkk]
        exact ih
      · simp only [Dict.del, if_neg h₀, Dict.get]
        by_cases h₁ : k₀ = k'
        · rw [if_pos h₁, if_pos h₁]
        · rw [if_neg h₁, if_neg h₁]
          exact ih

/-- Deletion never adds entries. -/
theorem Dict.length_del_le {κ α : Type} [DecidableEq κ] (m : Dict κ α) (k : κ) :
    (m.del k).length ≤ m.length := by
  induction m with
  | nil => simp [Dict.del]
  | cons kv rest ih =>
      obtain ⟨k', v'⟩ := kv
      by_cases h : k' = k
      · simp only [Dict.del, if_pos h, List.length_cons]
        omega
      · simp only [Dict.del, if_neg h, List.length_cons]
        omega

/-- Deleting an absent key is a no-op. -/
theorem Dict.del_eq_of_not_mem_keys {κ α : Type} [DecidableEq κ] (m : Dict κ α) (k : κ)
    (h : k ∉ m.map Prod.fst) : m.del k = m := by
  induction m with
  | nil => simp [Dict.del]
  | cons kv rest ih =>
      obtain ⟨k', v'⟩ := kv
      simp only [List.map_cons, List.mem_cons, not_or] at h
      have h1 : ¬ (k' = k) := fun hh => h.1 (Eq.symm hh)
      simp [Dict.del, h1, ih h.2]

/-- The keys remaining after a deletion form a sublist of the keys. -/
theorem Dict.keys_del_sublist {κ α : Type} [DecidableEq κ] (m : Dict κ α) (k : κ) :
    List.Sublist ((m.del k).map Prod.fst) (m.map Prod.fst) := by
  induction m with
  | nil => simp [Dict.del]
  | cons kv rest ih =>
      obtain ⟨k', v'⟩ := kv
      by_cases h : k' = k
      · simp only [Dict.del, if_pos h, List.map_cons]
        exact ih.trans (List.sublist_cons_self _ _)
      · simp only [Dict.del, if_neg h, List.map_cons]
        exact ih.cons₂ _

/-- On a dict with no duplicate keys, a deletion removes at most one
entry. -/
theorem Dict.length_del_ge_of_nodup {κ α : Type} [DecidableEq κ] (m : Dict κ α) (k : κ)
    (h : (m.map Prod.fst).Nodup) : m.length - 1 ≤ (m.del k).length := by
  induction m with
  | nil => simp [Dict.del]
  | cons kv rest ih =>
      obtain ⟨k', v'⟩ := kv
      simp only [List.map_cons, List.nodup_cons] at h
      by_cases hk : k' = k
      · subst hk
        rw [Dict.del, if_pos rfl, Dict.del_eq_of_not_mem_keys rest k' h.1]
        simp
      · have := ih h.2
        simp only [Dict.del, if_neg hk, List.length_cons]
        omega

/-! ## C1: qos forced to 0 on `otastatus` topics -/

/-- C1 (amended): in `publish` and `publish_async`, the qos handed to the
underlying client is forced to 0 whenever `otastatus` occurs as a
substring of the topic — in particular whenever the topic's suffix is
`otastatus` — and the caller's qos is honored for every topic that does
not contain `otastatus` at all. -/
theorem C1_otastatus_qos (t : String) (q : Nat) :
    (("otastatus".toList <:+: t.toList) →
      MQTTOperations.publishQos t q = 0 ∧ MQTTOperations.publishAsyncQos t q = 0) ∧
    (("otastatus".toList <:+ t.toList) →
      MQTTOperations.publishQos t q = 0 ∧ MQTTOperations.publishAsyncQos t q = 0) ∧
    ((¬ ("otastatus".toList <:+: t.toList)) →
      MQTTOperations.publishQos t q = q ∧ MQTTOperations.publishAsyncQos t q = q) := by
  refine ⟨?_, ?_, ?_⟩
  · intro hi
    unfold MQTTOperations.publishQos MQTTOperations.publishAsyncQos
    exact ⟨if_pos hi, if_pos hi⟩
  · intro h
    have hi : "otastatus".toList <:+: t.toList := h.isInfix
    unfold MQTTOperations.publishQos MQTTOperations.publishAsyncQos
    exact ⟨if_pos hi, if_pos hi⟩
  · intro h
    unfold MQTTOperations.publishQos MQTTOperations.publishAsyncQos
    exact ⟨if_neg h, if_neg h⟩

/-- C1 witness: on `node/n1/otastatus/ack`, where `otastatus` occurs
only as an inner substring, and on the real suffix topic
`node/n1/otastatus`, a caller-supplied qos of 1 is replaced by 0. -/
theorem C1_witness :
    (MQTTOperations.publishQos "node/n1/otastatus/ack" 1 = 0 ∧
     MQTTOperations.publishAsyncQos "node/n1/otastatus/ack" 1 = 0) ∧
    (MQTTOperations.publishQos "node/n1/otastatus" 1 = 0 ∧
     MQTTOperations.publishAsyncQos "node/n1/otastatus" 1 = 0) :=
  ⟨(C1_otastatus_qos "node/n1/otastatus/ack" 1).1 (by decide),
   (C1_otastatus_qos "node/n1/otastatus" 1).2.1 (by decide)⟩

/-- C1 counterexample: the topic `node/n1/otastatusx` does not have
suffix `otastatus`, yet both publish paths force its qos from 1 to 0,
because the code tests substring containment (`'otastatus' in topic`)
rather than the suffix. -/
theorem C1_counterexample :
    ¬ ("otastatus".toList <:+ "node/n1/otastatusx".toList) ∧
    MQTTOperations.publishQos "node/n1/otastatusx" 1 = 0 ∧
    MQTTOperations.publishAsyncQos "node/n1/otastatusx" 1 = 0 := by
  refine ⟨by decide, by decide, by decide⟩

/-! ## C9: disconnect never propagates errors and is idempotent -/

/-- C9: `disconnect` and `disconnect_async` never raise (they are total
functions into `Bool`); when the underlying client call raises, they
return `True`; they always leave `self.connected = False`; and a second
disconnect of the already-disconnected session returns the same result. -/
theorem C9_disconnect (s : MqttSessionState) (res : Except Unit Bool) :
    ((MQTTOperations.disconnect s res).2.1.connected = false) ∧
    ((MQTTOperations.disconnectAsync s res).2.1.connected = false) ∧
    (res = Except.error () →
      (MQTTOperations.disconnect s res).1 = true ∧
      (MQTTOperations.disconnectAsync s res).1 = true) ∧
    ((MQTTOperations.disconnect (MQTTOperations.disconnect s res).2.1 res).1 =
      (MQTTOperations.disconnect s res).1) ∧
    ((MQTTOperations.disconnectAsync (MQTTOperations.disconnectAsync s res).2.1 res).1 =
      (MQTTOperations.disconnectAsync s res).1) := by
  refine ⟨rfl, rfl, ?_, rfl, rfl⟩
  intro h
  subst h
  exact ⟨rfl, rfl⟩

/-- C9 witness: on a connected session whose client raises during
disconnect, both paths return `True`. -/
theorem C9_witness :
    (MQTTOperations.disconnect ⟨true, 7⟩ (Except.error ())).1 = true ∧
    (MQTTOperations.disconnectAsync ⟨true, 7⟩ (Except.error ())).1 = true :=
  (C9_disconnect ⟨true, 7⟩ (Except.error ())).2.2.1 rfl

/-! ## C10: connect is idempotent on a connected session -/

/-- C10: when `self.connected` already holds, `connect` and
`connect_async` return `True` without calling the underlying client's
connect and leave the session state (connected flag and `last_ping`)
unchanged. -/
theorem C10_connect (s : MqttSessionState) (now : Int) (res : Except Unit Bool)
    (h : s.connected = true) :
    MQTTOperations.connect s now res = (Except.ok true, s, []) ∧
    MQTTOperations.connectAsync s now res = (Except.ok true, s, []) := by
  simp [MQTTOperations.connect, MQTTOperations.connectAsync, h]

/-- C10 witness: a connected session with `last_ping = 5` is untouched
even when the underlying client would have raised. -/
theorem C10_witness :
    MQTTOperations.connect ⟨true, 5⟩ 99 (Except.error ()) =
      (Except.ok true, ⟨true, 5⟩, []) ∧
    MQTTOperations.connectAsync ⟨true, 5⟩ 99 (Except.error ()) =
      (Except.ok true, ⟨true, 5⟩, []) :=
  C10_connect ⟨true, 5⟩ 99 (Except.error ()) rfl

/-! ## C6: the per-second rate-limiter refill is unbounded -/

/-- C6 (code bug): with `connection_rate_limit = 1` the reset task's
release loop raises the semaphore counter to 2 after one idle second
(`asyncio.Semaphore.release` never raises the `ValueError` the loop's
`break` waits for), after which two `connect()` acquisitions succeed
inside the single one-second window that follows — exceeding the claimed
cap of 1 connect per window. -/
theorem C6_rate_limiter_code_eval :
    (ConnectionPool.runRateLimiter 1 [RateEvent.tick]).counter = 2 ∧
    (ConnectionPool.runRateLimiter 1
        [RateEvent.tick, RateEvent.tryConnect, RateEvent.tryConnect]).maxWindowConnects = 2 ∧
    (ConnectionPool.runRateLimiter 1
        [RateEvent.tick, RateEvent.tryConnect, RateEvent.tryConnect]).maxWindowConnects > 1 := by
  refine ⟨rfl, rfl, by decide⟩

/-! ## C7: the monitoring-level demotion branch is dead -/

/-- C7 (code bug): `_adjust_monitoring_level` leaves a High-level profile
with 10 consecutive successes and no errors at High, and a Normal-level
profile with 10 consecutive successes and no errors at Normal, because
the whole demotion chain sits inside `if profile.error_count > 0` and the
Normal arm additionally requires `error_count == 0` — an unsatisfiable
combination. -/
theorem C7_adjust_code_eval :
    AdaptiveMonitor.adjustMonitoringLevel
        { nodeId := "n1", level := MonitoringLevel.high, lastActivity := 0,
          errorCount := 0, consecutiveSuccesses := 10 } =
      { nodeId := "n1", level := MonitoringLevel.high, lastActivity := 0,
        errorCount := 0, consecutiveSuccesses := 10 } ∧
    AdaptiveMonitor.adjustMonitoringLevel
        { nodeId := "n1", level := MonitoringLevel.normal, lastActivity := 0,
          errorCount := 0, consecutiveSuccesses := 10 } =
      { nodeId := "n1", level := MonitoringLevel.normal, lastActivity := 0,
        errorCount := 0, consecutiveSuccesses := 10 } := by
  exact ⟨rfl, rfl⟩

/-! ## OTA store lemmas -/

/-- Characterisation of Active membership. -/
theorem OtaState.inActive_eq_true_iff (s : OtaState) (n : String) (j : Value) :
    s.inActive n j = true ↔
      ∃ jobs, s.otaJobs.get n = some jobs ∧ (jobs.get j).isSome = true := by
  unfold OtaState.inActive
  cases hg : s.otaJobs.get n with
  | none => simp
  | some jobs => simp

/-- Characterisation of History membership. -/
theorem OtaState.inHistory_eq_true_iff (s : OtaState) (n : String) (j : Value) :
    s.inHistory n j = true ↔
      ∃ jobs, s.otaStatusHistory.get n = some jobs ∧ (jobs.get j).isSome = true := by
  unfold OtaState.inHistory
  cases hg : s.otaStatusHistory.get n with
  | none => simp
  | some jobs => simp

/-! ## C4: malformed URL responses are ignored, valid ones stored -/

/-- C4: a URL-response payload without `ota_job_id`, or with an empty
one, makes `store_ota_job` return `False` and leaves the whole store —
in-memory and on-disk Active and History partitions — unchanged; a
payload with a non-empty `ota_job_id` returns `True` and creates or
overwrites (latest wins) the Active record for `(node_id, ota_job_id)`
with the payload plus injected timestamps, saving Active to disk and
leaving History untouched. -/
theorem C4_store_ota_job (nowMs : Int) (nowStr : String) (n : String)
    (resp : OtaRecord) (s : OtaState) :
    (resp.get "ota_job_id" = none →
      RMNodeManager.storeOtaJob nowMs nowStr n resp s = (false, s)) ∧
    (resp.get "ota_job_id" = some (Value.vStr "") →
      RMNodeManager.storeOtaJob nowMs nowStr n resp s = (false, s)) ∧
    (∀ jidStr : String, jidStr ≠ "" → resp.get "ota_job_id" = some (Value.vStr jidStr) →
      (RMNodeManager.storeOtaJob nowMs nowStr n resp s).1 = true ∧
      (∃ jobs, (RMNodeManager.storeOtaJob nowMs nowStr n resp s).2.otaJobs.get n = some jobs ∧
        jobs.get (Value.vStr jidStr) =
          some ((resp.set "timestamp" (Value.vInt nowMs)).set
            "received_at" (Value.vStr nowStr))) ∧
      (RMNodeManager.storeOtaJob nowMs nowStr n resp s).2.diskOtaJobs =
        (RMNodeManager.storeOtaJob nowMs nowStr n resp s).2.otaJobs ∧
      (RMNodeManager.storeOtaJob nowMs nowStr n resp s).2.otaStatusHistory =
        s.otaStatusHistory ∧
      (RMNodeManager.storeOtaJob nowMs nowStr n resp s).2.diskOtaStatusHistory =
        s.diskOtaStatusHistory) := by
  refine ⟨?_, ?_, ?_⟩
  · intro h
    unfold RMNodeManager.storeOtaJob
    rw [h]
  · intro h
    unfold RMNodeManager.storeOtaJob
    rw [h]
    simp [Value.truthy]
  · intro jidStr hne h
    have ht : (Value.vStr jidStr).truthy = true := by simp [Value.truthy, hne]
    unfold RMNodeManager.storeOtaJob
    rw [h]
    simp only [ht, if_true, RMNodeManager.saveOtaJobs]
    refine ⟨by trivial, ⟨_, Dict.get_set_self _ _ _, Dict.get_set_self _ _ _⟩,
      by trivial, by trivial, by trivial⟩

/-- C4 witness: a payload without `ota_job_id` is ignored; one with
`ota_job_id = "Z"` lands in the Active partition. -/
theorem C4_witness :
    RMNodeManager.storeOtaJob 1 "t" "n9" [("url", Value.vStr "u")] OtaState.empty =
      (false, OtaState.empty) ∧
    (RMNodeManager.storeOtaJob 1 "t" "n9" [("ota_job_id", Value.vStr "Z")]
        OtaState.empty).1 = true :=
  ⟨(C4_store_ota_job 1 "t" "n9" [("url", Value.vStr "u")] OtaState.empty).1 (by decide),
   ((C4_store_ota_job 1 "t" "n9" [("ota_job_id", Value.vStr "Z")] OtaState.empty).2.2
      "Z" (by decide) (by decide)).1⟩

/-! ## C3: OTA status updates move Active jobs to History -/

/-- C3: for a job `(n, j)` in the Active partition, the status dispatch
of the shell (`publish otastatus` then `move_ota_job_to_history` unless
the status is `in-progress`) removes the job from Active and places it
in History with `ota_status` set to the reported status, the status
timestamps injected, and every other field of the Active record
preserved; an `in-progress` status leaves the whole store, in particular
the Active record and the entire History partition, unchanged. -/
theorem C3_ota_status_transition (nowMs : Int) (nowStr status : String) (n : String)
    (j : Value) (s : OtaState) (h : s.inActive n j = true) :
    (status ≠ "in-progress" →
      ((PersistentShell.sendOtaStatusMove nowMs nowStr status n j s).inActive n j = false) ∧
      ((PersistentShell.sendOtaStatusMove nowMs nowStr status n j s).inHistory n j = true) ∧
      (∀ jobs jobData,
        s.otaJobs.get n = some jobs → jobs.get j = some jobData →
        ∃ histJobs newRec,
          (PersistentShell.sendOtaStatusMove nowMs nowStr status n j s).otaStatusHistory.get n =
            some histJobs ∧
          histJobs.get j = some newRec ∧
          newRec.get "ota_status" = some (Value.vStr status) ∧
          newRec.get "status_timestamp" = some (Value.vInt nowMs) ∧
          newRec.get "status_received_at" = some (Value.vStr nowStr) ∧
          (∀ k : String, k ≠ "ota_status" → k ≠ "status_timestamp" →
            k ≠ "status_received_at" → newRec.get k = jobData.get k))) ∧
    (status = "in-progress" → PersistentShell.sendOtaStatusMove nowMs nowStr status n j s = s) := by
  constructor
  · intro hst
    rw [OtaState.inActive_eq_true_iff] at h
    obtain ⟨jobs, hjobs, hjd⟩ := h
    cases hjd' : jobs.get j with
    | none => rw [hjd'] at hjd; simp at hjd
    | some jobData =>
        unfold PersistentShell.sendOtaStatusMove
        rw [if_pos hst]
        unfold RMNodeManager.moveOtaJobToHistory
        rw [hjobs]
        simp only []
        rw [hjd']
        simp only [RMNodeManager.saveOtaJobs, RMNodeManager.saveOtaStatusHistory]
        refine ⟨?_, ?_, ?_⟩
        · rw [OtaState.inActive]
          by_cases hemp : jobs.del j = []
          · simp only [hemp, if_true, Dict.get_del_self]
          · simp only [if_neg hemp, Dict.get_set_self, Dict.get_del_self, Option.isSome_none]
        · rw [OtaState.inHistory]
          simp only [Dict.get_set_self, Option.isSome_some]
        · intro jobs0 jobData0 hjobs0 hjd0
          injection hjobs0 with hjobs0
          subst hjobs0
          rw [hjd'] at hjd0
          injection hjd0 with hjd0
          subst hjd0
          refine ⟨_, _, Dict.get_set_self _ _ _, Dict.get_set_self _ _ _, ?_, ?_, ?_, ?_⟩
          · rw [Dict.get_set_ne _ _ (by decide), Dict.get_set_ne _ _ (by decide),
              Dict.get_set_self]
          · rw [Dict.get_set_ne _ _ (by decide), Dict.get_set_self]
          · rw [Dict.get_set_self]
          · intro k hk1 hk2 hk3
            rw [Dict.get_set_ne _ _ hk3, Dict.get_set_ne _ _ hk2, Dict.get_set_ne _ _ hk1]
  · intro hst
    unfold PersistentShell.sendOtaStatusMove
    rw [if_neg (fun hc => hc hst)]

/-- C3 witness: storing job `J1` for node `n1` and then reporting
`success` removes it from the Active partition. -/
theorem C3_witness :
    (PersistentShell.sendOtaStatusMove 5 "t1" "success" "n1" (Value.vStr "J1")
        (RMNodeManager.storeOtaJob 1 "t0" "n1" [("ota_job_id", Value.vStr "J1")]
          OtaState.empty).2).inActive "n1" (Value.vStr "J1") = false :=
  ((C3_ota_status_transition 5 "t1" "success" "n1" (Value.vStr "J1") _ (by decide)).1
    (by decide)).1

/-! ## C2: the exactly-one partition invariant -/

/-- C2 counterexample: store job `J1` for node `n1`, move it to History
with status `success` (exactly one partition holds it), then store a
second URL response with the same `ota_job_id`.  `store_ota_job` never
consults the History partition, so the stored-and-never-cleared pair
`("n1", "J1")` now appears in both Active and History, refuting the
exactly-one invariant. -/
theorem C2_counterexample :
    (otaScenario2.inActive "n1" (Value.vStr "J1") = false ∧
     otaScenario2.inHistory "n1" (Value.vStr "J1") = true) ∧
    (otaScenario3.inActive "n1" (Value.vStr "J1") = true ∧
     otaScenario3.inHistory "n1" (Value.vStr "J1") = true) := by
  decide

/-- C2 (amended): every OTA store operation preserves membership of a
known pair in *at least one* of the Active and History partitions:
`store_ota_job` and `move_ota_job_to_history` never drop a pair from
the union of the two partitions, a successful store places its pair in
Active, `clear_ota_jobs` for one node does not touch other nodes'
pairs, and no clear ever removes a pair from History.  The stronger
"exactly one" does not hold: storing a job id that already reached
History puts the pair in both partitions. -/
theorem C2_partition_amended :
    (∀ (nowMs : Int) (nowStr : String) (n' : String) (resp : OtaRecord) (s : OtaState)
        (n : String) (j : Value), s.inEither n j = true →
        (RMNodeManager.storeOtaJob nowMs nowStr n' resp s).2.inEither n j = true) ∧
    (∀ (nowMs : Int) (nowStr status : String) (n' : String) (j' : Value) (s : OtaState)
        (n : String) (j : Value), s.inEither n j = true →
        (RMNodeManager.moveOtaJobToHistory nowMs nowStr n' j' status s).2.inEither n j = true) ∧
    (∀ (nowMs : Int) (nowStr : String) (n' : String) (resp : OtaRecord) (s : OtaState)
        (jid : Value), resp.get "ota_job_id" = some jid → jid.truthy = true →
        (RMNodeManager.storeOtaJob nowMs nowStr n' resp s).2.inActive n' jid = true) ∧
    (∀ (c : String) (s : OtaState) (n : String) (j : Value), n ≠ c →
        s.inEither n j = true →
        (RMNodeManager.clearOtaJobs (some c) s).inEither n j = true) ∧
    (∀ (o : Option String) (s : OtaState) (n : String) (j : Value),
        s.inHistory n j = true → (RMNodeManager.clearOtaJobs o s).inHistory n j = true) := by
  refine ⟨?_, ?_, ?_, ?_, ?_⟩
  · intro nowMs nowStr n' resp s n j h
    unfold RMNodeManager.storeOtaJob
    cases hg : resp.get "ota_job_id" with
    | none => exact h
    | some jid =>
        simp only []
        by_cases ht : jid.truthy
        · simp only [ht, if_true, RMNodeManager.saveOtaJobs]
          rw [OtaState.inEither, Bool.or_eq_true] at h ⊢
          rcases h with h | h
          · left
            rw [OtaState.inActive_eq_true_iff] at h ⊢
            obtain ⟨jobs, hjobs, hmem⟩ := h
            by_cases hn : n = n'
            · subst hn
              refine ⟨_, Dict.get_set_self _ _ _, ?_⟩
              rw [hjobs]
              simp only [Option.getD_some]
              by_cases hj : j = jid
              · subst hj
                rw [Dict.get_set_self]
                rfl
              · rw [Dict.get_set_ne _ _ hj]
                exact hmem
            · refine ⟨jobs, ?_, hmem⟩
              rw [Dict.get_set_ne _ _ hn]
              exact hjobs
          · right
            exact h
        · simp only [ht, if_false]
          exact h
  · intro nowMs nowStr status n' j' s n j h
    unfold RMNodeManager.moveOtaJobToHistory
    cases hg : s.otaJobs.get n' with
    | none => exact h
    | some jobs =>
        simp only []
        cases hj' : jobs.get j' with
        | none => exact h
        | some jobData =>
            simp only [RMNodeManager.saveOtaJobs, RMNodeManager.saveOtaStatusHistory]
            rw [OtaState.inEither, Bool.or_eq_true] at h ⊢
            rcases h with h | h
            · rw [OtaState.inActive_eq_true_iff] at h
              obtain ⟨jobs0, hjobs0, hmem0⟩ := h
              by_cases hn : n = n'
              · subst hn
                rw [hjobs0] at hg
                injection hg with hg
                subst hg
                by_cases hj : j = j'
                · subst hj
                  right
                  rw [OtaState.inHistory_eq_true_iff]
                  refine ⟨_, Dict.get_set_self _ _ _, ?_⟩
                  rw [Dict.get_set_self]
                  rfl
                · left
                  rw [OtaState.inActive_eq_true_iff]
                  have hne : (jobs0.del j').get j = jobs0.get j := Dict.get_del_ne _ hj
                  have hnonempty : jobs0.del j' ≠ [] := by
                    intro hcontra
                    rw [hcontra] at hne
                    rw [Dict.get] at hne
                    rw [← hne] at hmem0
                    simp at hmem0
                  rw [if_neg hnonempty]
                  refine ⟨_, Dict.get_set_self _ _ _, ?_⟩
                  rw [hne]
                  exact hmem0
              · left
                rw [OtaState.inActive_eq_true_iff]
                by_cases hemp : jobs.del j' = []
                · rw [if_pos hemp]
                  refine ⟨jobs0, ?_, hmem0⟩
                  rw [Dict.get_del_ne _ hn]
                  exact hjobs0
                · rw [if_neg hemp]
                  refine ⟨jobs0, ?_, hmem0⟩
                  rw [Dict.get_set_ne _ _ hn]
                  exact hjobs0
            · right
              rw [OtaState.inHistory_eq_true_iff] at h
              obtain ⟨hjobs0, hh0, hmem0⟩ := h
              rw [OtaState.inHistory_eq_true_iff]
              by_cases hn : n = n'
              · subst hn
                refine ⟨_, Dict.get_set_self _ _ _, ?_⟩
                rw [hh0]
                simp only [Option.getD_some]
                by_cases hj : j = j'
                · subst hj
                  rw [Dict.get_set_self]
                  rfl
                · rw [Dict.get_set_ne _ _ hj]
                  exact hmem0
              · refine ⟨hjobs0, ?_, hmem0⟩
                rw [Dict.get_set_ne _ _ hn]
                exact hh0
  · intro nowMs nowStr n' resp s jid hg ht
    unfold RMNodeManager.storeOtaJob
    rw [hg]
    simp only [ht, if_true, RMNodeManager.saveOtaJobs]
    rw [OtaState.inActive_eq_true_iff]
    refine ⟨_, Dict.get_set_self _ _ _, ?_⟩
    rw [Dict.get_set_self]
    rfl
  · intro c s n j hn h
    unfold RMNodeManager.clearOtaJobs
    by_cases hc : (s.otaJobs.get c).isSome
    · simp only [hc, if_true, RMNodeManager.saveOtaJobs]
      rw [OtaState.inEither, Bool.or_eq_true] at h ⊢
      rcases h with h | h
      · left
        rw [OtaState.inActive_eq_true_iff] at h ⊢
        obtain ⟨jobs, hjobs, hmem⟩ := h
        refine ⟨jobs, ?_, hmem⟩
        rw [Dict.get_del_ne _ hn]
        exact hjobs
      · right
        exact h
    · simp only [hc, if_false]
      exact h
  · intro o s n j h
    unfold RMNodeManager.clearOtaJobs
    cases o with
    | none => exact h
    | some c =>
        by_cases hc : (s.otaJobs.get c).isSome
        · simp only [hc, if_true, RMNodeManager.saveOtaJobs]
          exact h
        · simp only [hc, if_false]
          exact h

/-- C2 witness: a fresh store of job `Z` for node `n9` places the pair
in the Active partition. -/
theorem C2_witness :
    (RMNodeManager.storeOtaJob 1 "t" "n9" [("ota_job_id", Value.vStr "Z")]
        OtaState.empty).2.inActive "n9" (Value.vStr "Z") = true :=
  C2_partition_amended.2.2.1 1 "t" "n9" [("ota_job_id", Value.vStr "Z")]
    OtaState.empty (Value.vStr "Z") (by decide) (by decide)

/-! ## C5: circuit breaker timing and opening -/

/-- C5: for a node whose breaker is CIRCUIT_OPEN with breaker timestamp
`t`, any attempt before `circuit_breaker_timeout` seconds have elapsed
is skipped (the gate returns false, so `_connect_single_node` exits
before initiating a `connect()`) with the pool state unchanged; once the
timeout has elapsed the attempt is allowed and the node transitions to
DISCONNECTED with its breaker timer dropped.  Independently,
`_handle_connection_failure` increments `consecutive_failures`, and as
soon as the incremented count reaches `circuit_breaker_threshold` the
breaker opens (state CIRCUIT_OPEN, timer recorded). -/
theorem C5_circuit_breaker (cfg : PoolConfig) (now t : Int) (s : PoolState) (n : String) :
    (s.connectionStates.get n = some ConnectionState.circuitOpen →
     s.circuitBreakerTimers.get n = some t →
     ((now - t < cfg.circuitBreakerTimeout →
        ConnectionPool.shouldAttemptConnection cfg now s n = (false, s)) ∧
      (now - t > cfg.circuitBreakerTimeout →
        (ConnectionPool.shouldAttemptConnection cfg now s n).1 = true ∧
        (ConnectionPool.shouldAttemptConnection cfg now s n).2.connectionStates.get n =
          some ConnectionState.disconnected ∧
        (ConnectionPool.shouldAttemptConnection cfg now s n).2.circuitBreakerTimers.get n =
          none))) ∧
    (((ConnectionPool.handleConnectionFailure cfg now s n).connectionStats.get n).getD
        {} ).consecutiveFailures =
      ((s.connectionStats.get n).getD {}).consecutiveFailures + 1 ∧
    (((s.connectionStats.get n).getD {}).consecutiveFailures + 1 ≥
        cfg.circuitBreakerThreshold →
      (ConnectionPool.handleConnectionFailure cfg now s n).connectionStates.get n =
        some ConnectionState.circuitOpen ∧
      (ConnectionPool.handleConnectionFailure cfg now s n).circuitBreakerTimers.get n =
        some now) := by
  refine ⟨?_, ?_, ?_⟩
  · intro hst htm
    unfold ConnectionPool.shouldAttemptConnection
    rw [hst, htm]
    constructor
    · intro hlt
      have hng : ¬ (now - t > cfg.circuitBreakerTimeout) := by omega
      simp [hng]
    · intro hgt
      simp [hgt, Dict.get_set_self, Dict.get_del_self]
  · unfold ConnectionPool.handleConnectionFailure
    by_cases hth :
        ((s.connectionStats.get n).getD {}).consecutiveFailures + 1 ≥
          cfg.circuitBreakerThreshold
    · rw [if_pos hth]
      unfold ConnectionPool.openCircuitBreaker
      simp [Dict.get_set_self]
    · rw [if_neg hth]
      simp [Dict.get_set_self]
  · intro hth
    unfold ConnectionPool.handleConnectionFailure
    rw [if_pos hth]
    unfold ConnectionPool.openCircuitBreaker
    exact ⟨Dict.get_set_self _ _ _, Dict.get_set_self _ _ _⟩

/-- C5 witness: with the default configuration (threshold 3, timeout
120 s), a node whose breaker opened at time 100 is skipped at time 150,
and a third consecutive failure opens the breaker. -/
theorem C5_witness :
    ConnectionPool.shouldAttemptConnection {} 150
        { connectionStates := [("n1", ConnectionState.circuitOpen)],
          connectionStats := [],
          circuitBreakerTimers := [("n1", 100)] } "n1" =
      (false,
        { connectionStates := [("n1", ConnectionState.circuitOpen)],
          connectionStats := [],
          circuitBreakerTimers := [("n1", 100)] }) ∧
    (ConnectionPool.handleConnectionFailure {} 150
        { connectionStates := [("n1", ConnectionState.circuitOpen)],
          connectionStats := [{ fst := "n1", snd := { consecutiveFailures := 2 } }],
          circuitBreakerTimers := [("n1", 100)] } "n1").connectionStates.get "n1" =
      some ConnectionState.circuitOpen :=
  ⟨((C5_circuit_breaker {} 150 100
      { connectionStates := [("n1", ConnectionState.circuitOpen)],
        connectionStats := [],
        circuitBreakerTimers := [("n1", 100)] } "n1").1 (by decide) (by decide)).1
      (by decide),
   ((C5_circuit_breaker {} 150 100
      { connectionStates := [("n1", ConnectionState.circuitOpen)],
        connectionStats := [{ fst := "n1", snd := { consecutiveFailures := 2 } }],
        circuitBreakerTimers := [("n1", 100)] } "n1").2.2 (by decide)).1⟩

/-! ## Subscription manager lemmas -/

/-- The subscribe loop emits exactly one qos-0 subscribe call per
requested topic, independently of the manager state. -/
theorem SelectiveSubscriptionManager.subscribeTopicsLoop_actions (nodeId : String)
    (priority : Int) (subOk : String → Bool) :
    ∀ (topics : List String) (st : SubscriptionState),
      (SelectiveSubscriptionManager.subscribeTopicsLoop nodeId priority subOk topics st).2 =
        topics.map (fun t => SubAction.subscribeA (nodeId, t) 0) := by
  intro topics
  induction topics with
  | nil => intro st; rfl
  | cons t rest ih =>
      intro st
      unfold SelectiveSubscriptionManager.subscribeTopicsLoop
      simp [ih]

/-- The eviction loop only deletes priority entries. -/
theorem SelectiveSubscriptionManager.evictLoop_priority_length_le :
    ∀ (l : List (FullTopic × Int)) (k : Nat) (st : SubscriptionState),
      (SelectiveSubscriptionManager.evictLoop k l st).subscriptionPriority.length ≤
        st.subscriptionPriority.length := by
  intro l
  induction l with
  | nil =>
      intro k st
      cases k <;> simp [SelectiveSubscriptionManager.evictLoop]
  | cons e rest ih =>
      intro k st
      cases k with
      | zero => simp [SelectiveSubscriptionManager.evictLoop]
      | succ k' =>
          obtain ⟨ft, p⟩ := e
          simp only [SelectiveSubscriptionManager.evictLoop]
          exact le_trans (ih k' _) (Dict.length_del_le _ _)

/-- On a priority dict with unique keys the eviction loop removes at
most one entry per step. -/
theorem SelectiveSubscriptionManager.evictLoop_priority_length_ge :
    ∀ (l : List (FullTopic × Int)) (k : Nat) (st : SubscriptionState),
      (st.subscriptionPriority.map Prod.fst).Nodup →
      st.subscriptionPriority.length - k ≤
        (SelectiveSubscriptionManager.evictLoop k l st).subscriptionPriority.length := by
  intro l
  induction l with
  | nil =>
      intro k st _
      cases k <;> simp [SelectiveSubscriptionManager.evictLoop]
  | cons e rest ih =>
      intro k st h
      cases k with
      | zero => simp [SelectiveSubscriptionManager.evictLoop]
      | succ k' =>
          obtain ⟨ft, p⟩ := e
          simp only [SelectiveSubscriptionManager.evictLoop]
          have hnd : ((st.subscriptionPriority.del ft).map Prod.fst).Nodup :=
            List.Nodup.sublist (Dict.keys_del_sublist st.subscriptionPriority ft) h
          have hge := ih k'
            { activeSubscriptions := st.activeSubscriptions.set ft.1
                (((st.activeSubscriptions.get ft.1).getD []).erase ft.2),
              subscriptionPriority := st.subscriptionPriority.del ft } hnd
          simp only [] at hge
          have hdel := Dict.length_del_ge_of_nodup st.subscriptionPriority ft h
          omega

/-- Replacing a node's topic set by a shorter one does not increase the
total subscription count. -/
theorem Dict.sum_lengths_set_le :
    ∀ (d : Dict String (List String)) (n : String) (l : List String),
      l.length ≤ ((d.get n).getD []).length →
      ((d.set n l).map (fun kv => kv.2.length)).sum ≤
        (d.map (fun kv => kv.2.length)).sum := by
  intro d
  induction d with
  | nil =>
      intro n l h
      simp [Dict.get, Option.getD] at h
      simp [Dict.set, h]
  | cons kv rest ih =>
      obtain ⟨k, v⟩ := kv
      intro n l h
      by_cases hk : k = n
      · subst hk
        simp only [Dict.get, eq_self_iff_true, if_true, Option.getD_some] at h
        simp only [Dict.set, eq_self_iff_true, if_true, List.map_cons, List.sum_cons]
        omega
      · simp only [Dict.get, if_neg hk] at h
        simp only [Dict.set, if_neg hk, List.map_cons, List.sum_cons]
        have := ih n l h
        omega

/-- The eviction loop never increases the total subscription count. -/
theorem SelectiveSubscriptionManager.evictLoop_total_le :
    ∀ (l : List (FullTopic × Int)) (k : Nat) (st : SubscriptionState),
      SelectiveSubscriptionManager.totalSubscriptions
          (SelectiveSubscriptionManager.evictLoop k l st) ≤
        SelectiveSubscriptionManager.totalSubscriptions st := by
  intro l
  induction l with
  | nil =>
      intro k st
      cases k <;> simp [SelectiveSubscriptionManager.evictLoop]
  | cons e rest ih =>
      intro k st
      cases k with
      | zero => simp [SelectiveSubscriptionManager.evictLoop]
      | succ k' =>
          obtain ⟨ft, p⟩ := e
          simp only [SelectiveSubscriptionManager.evictLoop]
          refine le_trans (ih k' _) ?_
          unfold SelectiveSubscriptionManager.totalSubscriptions
          exact Dict.sum_lengths_set_le _ _ _
            ((List.erase_sublist _ _).length_le)

/-! ## C8: bounded subscriptions with priority eviction -/

/-- C8 counterexample: with `max_subscriptions = 2`, node `n0` holding
two priority-1 subscriptions, a call subscribing three topics for `n1`
at priority 5 triggers eviction (the priority entry for `("n0", "x")` is
gone), yet the call's client actions contain no unsubscribe, and the
resulting total subscription count is 3, exceeding the cap of 2. -/
theorem C8_counterexample :
    subScenarioA.1.subscriptionPriority.get ("n0", "x") = some 1 ∧
    subScenarioB.1.subscriptionPriority.get ("n0", "x") = none ∧
    (subScenarioB.2.all fun a => !a.isUnsub) = true ∧
    SelectiveSubscriptionManager.totalSubscriptions subScenarioB.1 = 3 ∧
    SelectiveSubscriptionManager.totalSubscriptions subScenarioB.1 > 2 := by
  decide

/-- C8 (amended): `subscribe_node_topics` emits exactly one qos-0
subscribe on the underlying session per requested topic and never an
unsubscribe — evictions only drop entries from the manager's own
bookkeeping.  The cleanup removes at most `len(topics)` priority
entries (and, when the bookkeeping keys are unique, at least
`len(topics)` of them while any remain) and never increases the total
subscription count.  The global cap itself can still be exceeded after
the call, as the counterexample shows. -/
theorem C8_subscription_amended :
    (∀ (maxS : Option Nat) (nodeId : String) (topics : List String) (priority : Int)
        (subOk : String → Bool) (st : SubscriptionState),
        (SelectiveSubscriptionManager.subscribeNodeTopics maxS nodeId topics priority
            subOk st).2 =
          topics.map (fun t => SubAction.subscribeA (nodeId, t) 0)) ∧
    (∀ (needed : Nat) (st : SubscriptionState),
        (SelectiveSubscriptionManager.cleanupLowPrioritySubscriptions needed
            st).subscriptionPriority.length ≤
          st.subscriptionPriority.length) ∧
    (∀ (needed : Nat) (st : SubscriptionState),
        (st.subscriptionPriority.map Prod.fst).Nodup →
        st.subscriptionPriority.length - needed ≤
          (SelectiveSubscriptionManager.cleanupLowPrioritySubscriptions needed
            st).subscriptionPriority.length) ∧
    (∀ (needed : Nat) (st : SubscriptionState),
        SelectiveSubscriptionManager.totalSubscriptions
            (SelectiveSubscriptionManager.cleanupLowPrioritySubscriptions needed st) ≤
          SelectiveSubscriptionManager.totalSubscriptions st) := by
  refine ⟨?_, ?_, ?_, ?_⟩
  · intro maxS nodeId topics priority subOk st
    unfold SelectiveSubscriptionManager.subscribeNodeTopics
    exact SelectiveSubscriptionManager.subscribeTopicsLoop_actions nodeId priority subOk
      topics _
  · intro needed st
    exact SelectiveSubscriptionManager.evictLoop_priority_length_le _ needed st
  · intro needed st h
    exact SelectiveSubscriptionManager.evictLoop_priority_length_ge _ needed st h
  · intro needed st
    exact SelectiveSubscriptionManager.evictLoop_total_le _ needed st

/-- C8 witness: on the two-subscription state of the counterexample
scenario (whose bookkeeping keys are unique) a cleanup for one slot
keeps at least one of the two priority entries. -/
theorem C8_witness :
    subScenarioA.1.subscriptionPriority.length - 1 ≤
      (SelectiveSubscriptionManager.cleanupLowPrioritySubscriptions 1
        subScenarioA.1).subscriptionPriority.length :=
  C8_subscription_amended.2.2.1 1 subScenarioA.1 (by decide)

end RMNode
